import Mathlib

/-!
Verification of the Pdf-Wiz request pipeline against its specification.

The repository is a FastAPI service (`main.py`) dispatching to a processing
facade (`pdf_processor.py`) plus a retention sweeper (`cleanup.py`).  We give
a shallow embedding: strings are `List Char` with Python-faithful helper
functions, a PDF document is a list of pages, the filesystem zones are lists
of named entries, and each handler / facade operation is translated into a
pure Lean function following the source line by line.
-/

/-! ## Python-style string helpers (over `List Char`) -/

abbrev Str := List Char

/-- Coerce a Lean string literal to our character-list model. -/
def strOf (s : String) : Str := s.data

/-- Python `s.split(sep)` for a single-character separator: splits at every
occurrence, keeping empty tokens; the empty string yields `[""]`. -/
def pySplit (sep : Char) : Str → List Str
  | [] => [[]]
  | c :: rest =>
    if c = sep then [] :: pySplit sep rest
    else
      match pySplit sep rest with
      | [] => [[c]]
      | t :: ts => (c :: t) :: ts

/-- Python `s.strip()`: remove leading and trailing whitespace. -/
def pyStrip (s : Str) : Str :=
  ((s.dropWhile Char.isWhitespace).reverse.dropWhile Char.isWhitespace).reverse

/-- Python `s.lower()`. -/
def pyLower (s : Str) : Str := s.map Char.toLower

/-- Python `s.endswith(suffix)`. -/
def pyEndsWith (s suffix : Str) : Bool := suffix.isSuffixOf s

/-- Numeric value of a digit string. -/
def digitsVal (ds : Str) : Nat :=
  ds.foldl (fun acc c => acc * 10 + (c.toNat - ('0').toNat)) 0

/-- Python `int(s)`: strips whitespace, allows one optional sign, then
requires a nonempty run of digits; `none` models the `ValueError`. -/
def pyInt? (s : Str) : Option Int :=
  match pyStrip s with
  | '-' :: ds =>
    if ds ≠ [] ∧ ds.all Char.isDigit then some (-(digitsVal ds : Int)) else none
  | '+' :: ds =>
    if ds ≠ [] ∧ ds.all Char.isDigit then some ((digitsVal ds : Int)) else none
  | ds =>
    if ds ≠ [] ∧ ds.all Char.isDigit then some ((digitsVal ds : Int)) else none

/-- Python `os.path.basename`: the part after the last `'/'`. -/
def basename (p : Str) : Str := (pySplit '/' p).getLastD []

/-! ## PDF document model

A page carries an abstract content identifier and the accumulated `/Rotate`
value; a document is an ordered list of pages. -/

structure Page where
  content : Nat
  rot : Int
deriving DecidableEq, Repr

abbrev Pdf := List Page

namespace PDFProcessor

/-! ### `pdf_processor.PDFProcessor` facade operations -/

/-- The open-and-append loop of `merge_pdfs` (pdf_processor.py:47-49):
inputs are opened in order and the first failure aborts the operation.
Inputs are modelled as `Option Pdf`, `none` standing for a file that cannot
be opened. -/
def openAll : List (Option Pdf) → Except Str (List Pdf)
  | [] => Except.ok []
  | o :: rest =>
    match o with
    | none => Except.error (strOf "ProcessingError")
    | some d =>
      match openAll rest with
      | Except.ok ds => Except.ok (d :: ds)
      | Except.error e => Except.error e

/-- Embedding of `merge_pdfs` (pdf_processor.py:42-55): concatenates the opened inputs in
the given order into one output document; fails if any input cannot be
opened. -/
def merge_pdfs (inputs : List (Option Pdf)) : Except Str Pdf :=
  match openAll inputs with
  | Except.ok ds => Except.ok ds.flatten
  | Except.error e => Except.error e

/-- The page slice one `(start, end)` range contributes in `split_pdf`
(pdf_processor.py:69-77): 0-based indices `range(max(0, start-1), min(total, end))`. -/
def pageSlice (doc : Pdf) (r : Int × Int) : Pdf :=
  let total : Int := doc.length
  let startIdx : Int := max 0 (r.1 - 1)
  let endIdx : Int := min total r.2
  (List.range' startIdx.toNat (endIdx.toNat - startIdx.toNat)).filterMap
    (fun j => doc[j]?)

/-- Embedding of `split_pdf` (pdf_processor.py:57-85): one output document per range; an
empty range list defaults to one single-page range per page. -/
def split_pdf (doc : Pdf) (page_ranges : List (Int × Int)) : List Pdf :=
  let ranges :=
    if page_ranges = [] then
      (List.range' 1 doc.length).map (fun i : Nat => ((i : Int), (i : Int)))
    else page_ranges
  ranges.map (pageSlice doc)

/-- Embedding of `extract_pages` (pdf_processor.py:87-100): for each requested 1-based
page number, keep it when the 0-based index is in bounds, else skip. -/
def extract_pages (doc : Pdf) (page_numbers : List Int) : Pdf :=
  page_numbers.filterMap (fun n =>
    let idx := n - 1
    if 0 ≤ idx ∧ idx < (doc.length : Int) then doc[idx.toNat]? else none)

/-- Embedding of `organize_pdf` (pdf_processor.py:102-114): identical selection logic to
`extract_pages`. -/
def organize_pdf (doc : Pdf) (page_order : List Int) : Pdf :=
  page_order.filterMap (fun n =>
    let idx := n - 1
    if 0 ≤ idx ∧ idx < (doc.length : Int) then doc[idx.toNat]? else none)

/-- Embedding of `remove_pages` (pdf_processor.py:116-130): keep the 1-based pages not in
the removal list, in ascending order. -/
def remove_pages (doc : Pdf) (pages_to_remove : List Int) : Pdf :=
  let pages_to_keep : List Nat :=
    (List.range' 1 doc.length).filter (fun i => decide (¬ ((i : Int) ∈ pages_to_remove)))
  pages_to_keep.filterMap (fun i => doc[i - 1]?)

/-- Embedding of `rotate_pdf` (pdf_processor.py:132-143): `page.rotate(angle)` adds the
angle to the page's `/Rotate` value. -/
def rotate_pdf (doc : Pdf) (angle : Int) : Pdf :=
  doc.map (fun p => { p with rot := p.rot + angle })

/-- The visual orientation a `/Rotate` value denotes (PDF viewers reduce the
stored value modulo 360). -/
def orient (p : Page) : Int := p.rot % 360

end PDFProcessor

namespace Main

/-! ### `main.py` dispatcher handlers

Every handler in `main.py` wraps its whole body in
`try: ... except Exception as e: raise HTTPException(status_code=500, detail=str(e))`.
Since FastAPI's `HTTPException` is itself an `Exception`, an
`HTTPException(status_code=400, ...)` raised inside the `try` block is caught
by that blanket handler and re-raised with status 500.  The embedding
reproduces this: every raise inside the body surfaces with status 500. -/

/-- The extension check `file.filename.lower().endswith('.pdf')`. -/
def isPdfName (f : Str) : Bool := pyEndsWith (pyLower f) (strOf ".pdf")

/-- Outcome of one request to the merge endpoint: the HTTP status, the
detail/message string, the files left in the inbound `uploads/` zone after
the request, and every file the request wrote there at any point. -/
structure MergeOutcome where
  status : Nat
  detail : Str
  staged : List Str
  everStaged : List Str
deriving DecidableEq, Repr

/-- The staging loop of `merge_pdfs` (main.py:52-60): files are checked and
written one at a time; the first non-`.pdf` filename raises, leaving the
previously written files in the inbound zone.  Returns the staged files (in
upload order) and the raised detail, if any. -/
def stageFiles : List Str → List Str × Option Str
  | [] => ([], none)
  | f :: rest =>
    if isPdfName f then
      let (s, e) := stageFiles rest
      (f :: s, e)
    else
      ([], some (strOf "File " ++ f ++ strOf " is not a PDF"))

/-- The `POST /api/merge` handler `merge_pdfs` (main.py:44-73).  `facadeOk`
says whether the facade call `pdf_processor.merge_pdfs` returns normally;
when it raises, control jumps to the `except` clause and the input-cleanup
loop (main.py:67-68) is skipped. -/
def merge_endpoint (files : List Str) (facadeOk : Bool) : MergeOutcome :=
  if files.length < 2 then
    { status := 500, detail := strOf "At least 2 PDF files required for merging",
      staged := [], everStaged := [] }
  else
    match stageFiles files with
    | (staged, some d) =>
      { status := 500, detail := d, staged := staged, everStaged := staged }
    | (staged, none) =>
      if facadeOk then
        { status := 200, detail := strOf "PDFs merged successfully",
          staged := [], everStaged := staged }
      else
        { status := 500, detail := strOf "ProcessingError",
          staged := staged, everStaged := staged }

/-- One token of the split endpoint's page-range parser (main.py:90-97):
after `strip()`, a token containing `'-'` must split into exactly two
integer parts `(start, end)`; otherwise the whole token is one integer `n`,
denoting `(n, n)`.  `none` models the exception path. -/
def parseToken (t : Str) : Option (Int × Int) :=
  let t := pyStrip t
  if t.contains '-' then
    match pySplit '-' t with
    | [a, b] =>
      match pyInt? a, pyInt? b with
      | some x, some y => some (x, y)
      | _, _ => none
    | _ => none
  else
    match pyInt? t with
    | some n => some (n, n)
    | none => none

/-- The page-range parsing block of the split handler (main.py:88-97): if
the form field is blank after `strip()` the range list stays empty;
otherwise the field is split on `','` and each token parsed in order. -/
def parse_pages (pages : Str) : Option (List (Int × Int)) :=
  if pyStrip pages = [] then some []
  else (pySplit ',' pages).mapM parseToken

/-- Outcome of one request to the create-zip endpoint: HTTP status, message,
and the archive's entries as (arcname, file content) pairs in insertion
order. -/
structure ZipOutcome where
  status : Nat
  message : Str
  entries : List (Str × Str)
deriving DecidableEq, Repr

/-- The `POST /api/create-zip` handler `create_zip` (main.py:708-725).
`fs` models the filesystem: `fs p = some c` when path `p` exists with
content `c`.  Each listed path that exists is written to the archive under
its basename; a nonexistent path is skipped without any error. -/
def create_zip (fs : Str → Option Str) (files : List Str) : ZipOutcome :=
  { status := 200,
    message := strOf "ZIP file created successfully",
    entries := files.filterMap (fun p =>
      match fs p with
      | some c => some (basename p, c)
      | none => none) }

end Main

namespace Cleanup

/-! ### `cleanup.py` retention sweeper -/

/-- A directory entry in one of the staging zones: its name, whether it is a
subdirectory, its modification time, and whether `os.remove`/`os.path.getmtime`
would raise an `OSError` for it. -/
structure FsFile where
  name : Str
  isDir : Bool
  mtime : Int
  osError : Bool
deriving DecidableEq, Repr

/-- The per-directory loop of `cleanup_old_files` (cleanup.py:29-45): skip
subdirectories and `.gitkeep`; delete a regular file whose age strictly
exceeds the threshold, counting it; on a per-file `OSError` print and keep
going without counting.  Returns the surviving entries and the count of
deleted files. -/
def sweepDir (now maxAgeSeconds : Int) : List FsFile → List FsFile × Nat
  | [] => ([], 0)
  | f :: rest =>
    let (rem, cnt) := sweepDir now maxAgeSeconds rest
    if f.isDir ∨ f.name = strOf ".gitkeep" then
      (f :: rem, cnt)
    else if f.osError then
      (f :: rem, cnt)
    else if now - f.mtime > maxAgeSeconds then
      (rem, cnt + 1)
    else
      (f :: rem, cnt)

/-- The two staging zones scanned by the sweeper (`directories_to_clean =
['uploads', 'outputs']`), each with its existence flag. -/
structure Store where
  uploadsExists : Bool
  uploads : List FsFile
  outputsExists : Bool
  outputs : List FsFile
deriving DecidableEq, Repr

/-- Embedding of `cleanup_old_files` (cleanup.py:9-47): sweep `uploads` then `outputs`
(skipping a zone that does not exist) with threshold `max_age_hours * 3600`
seconds, returning the new store and the total number of deleted files. -/
def cleanup_old_files (max_age_hours : Int) (now : Int) (st : Store) : Store × Nat :=
  let maxAgeSeconds := max_age_hours * 3600
  let (u, cu) :=
    if st.uploadsExists then sweepDir now maxAgeSeconds st.uploads else (st.uploads, 0)
  let (o, co) :=
    if st.outputsExists then sweepDir now maxAgeSeconds st.outputs else (st.outputs, 0)
  ({ st with uploads := u, outputs := o }, cu + co)

/-- Default `max_age_hours` of `cleanup_old_files`. -/
def defaultMaxAgeHours : Int := 24

end Cleanup

/-- Specification-side reading of one split range: the pages of `doc` whose
1-based page number lies in the closed interval `[r.1, r.2]` clamped to
`[1, doc.length]`, in original document order. -/
def specSlice (doc : Pdf) (r : Int × Int) : Pdf :=
  let idxs : List Nat := (List.range doc.length).filter
    (fun j => decide (r.1 ≤ (j : Int) + 1 ∧ (j : Int) + 1 ≤ r.2))
  idxs.filterMap (fun j => doc[j]?)

/-- Specification-side reading of remove-pages: the pages whose 1-based
number lies in `{1..N}` minus the removal set, in original ascending
order. -/
def specRemove (doc : Pdf) (rm : List Int) : Pdf :=
  let idxs : List Nat := (List.range doc.length).filter
    (fun j => decide (¬ ((j : Int) + 1 ∈ rm)))
  idxs.filterMap (fun j => doc[j]?)

/-- Specification-side reading of extract/organize: the requested page
numbers restricted to `[1, N]`, taken in request order (duplicates
preserved), each mapped to its page. -/
def specSelect (doc : Pdf) (nums : List Int) : Pdf :=
  (nums.filter (fun n => decide (1 ≤ n ∧ n ≤ (doc.length : Int)))).filterMap
    (fun n => doc[(n - 1).toNat]?)

/-- Specification-side deletion predicate for the sweeper: a regular file,
not the reserved `.gitkeep` placeholder, accessible without an `OSError`,
whose age strictly exceeds the threshold in seconds. -/
def delOk (now secs : Int) (f : Cleanup.FsFile) : Bool :=
  !f.isDir && !decide (f.name = strOf ".gitkeep") && !f.osError
    && decide (now - f.mtime > secs)

/-! ## Theorems for the claims -/

/-- C1: uploading a `.txt` file to the merge endpoint is claimed to return a
client-error status and stage no file.  On the code, the handler's blanket
`except Exception` catches its own `HTTPException(400)` and re-raises it
with status 500, so the response is a server error; moreover, in a mixed
upload the already-staged `.pdf` file stays in the inbound zone.  This
theorem evaluates the handler at both failing inputs. -/
theorem C1_merge_txt_upload_gets_server_error :
    (Main.merge_endpoint [strOf "a.txt", strOf "b.txt"] true).status = 500 ∧
    (Main.merge_endpoint [strOf "a.txt", strOf "b.txt"] true).everStaged = [] ∧
    (Main.merge_endpoint [strOf "a.pdf", strOf "b.txt"] true).status = 500 ∧
    (Main.merge_endpoint [strOf "a.pdf", strOf "b.txt"] true).staged = [strOf "a.pdf"] := by
  decide

/-- When every uploaded filename passes the `.pdf` extension check, the
staging loop writes all files and raises nothing. -/
lemma stageFiles_all_pdf (files : List Str)
    (h : ∀ f ∈ files, Main.isPdfName f = true) :
    Main.stageFiles files = (files, none) := by
  induction files with
  | nil => rfl
  | cons f rest ih =>
    have hf := h f (by simp)
    simp [Main.stageFiles, hf, ih (fun g hg => h g (by simp [hg]))]

/-- C2: for a merge request whose uploads were all staged (at least two
files, all with a `.pdf` extension), the staged inputs are deleted if and
only if the facade call returns successfully: on success the inbound zone is
emptied of them, and when the facade raises every staged input remains. -/
theorem C2_input_cleanup_iff_facade_success (files : List Str) (facadeOk : Bool)
    (h2 : 2 ≤ files.length) (hpdf : ∀ f ∈ files, Main.isPdfName f = true) :
    (Main.merge_endpoint files facadeOk).everStaged = files ∧
    (facadeOk = true → (Main.merge_endpoint files facadeOk).staged = []) ∧
    (facadeOk = false → (Main.merge_endpoint files facadeOk).staged = files) := by
  have hs := stageFiles_all_pdf files hpdf
  have hlen : ¬ files.length < 2 := by omega
  cases facadeOk <;> simp [Main.merge_endpoint, hlen, hs]

/-- Witness for C2 at a concrete two-file request, in both facade outcomes. -/
theorem C2_witness :
    (Main.merge_endpoint [strOf "a.pdf", strOf "b.pdf"] true).staged = [] ∧
    (Main.merge_endpoint [strOf "a.pdf", strOf "b.pdf"] false).staged
      = [strOf "a.pdf", strOf "b.pdf"] := by
  refine ⟨(C2_input_cleanup_iff_facade_success [strOf "a.pdf", strOf "b.pdf"] true
      (by decide) (by decide)).2.1 rfl,
    (C2_input_cleanup_iff_facade_success [strOf "a.pdf", strOf "b.pdf"] false
      (by decide) (by decide)).2.2 rfl⟩

/-- Mapping an option-valued function over a list where it always succeeds
collects exactly the successes, in order. -/
lemma mapM_eq_map_of_isSome {α β : Type} (f : α → Option β) (d : β)
    (l : List α) (h : ∀ a ∈ l, (f a).isSome = true) :
    l.mapM f = some (l.map (fun a => (f a).getD d)) := by
  induction l with
  | nil => rfl
  | cons a t ih =>
    obtain ⟨b, hb⟩ := Option.isSome_iff_exists.mp (h a (by simp))
    rw [List.mapM_cons, hb, ih (fun x hx => h x (by simp [hx]))]
    simp [hb]

/-- C3: for every page-range string that is nonblank and whose comma-split
tokens all parse (a dash-joined pair `a-b` denoting `(a, b)`, a bare number
`n` denoting `(n, n)`), the split endpoint's parser returns exactly the
per-token ranges, in token order. -/
theorem C3_split_parser_token_order (pages : Str)
    (hne : pyStrip pages ≠ [])
    (hval : ∀ t ∈ pySplit ',' pages, (Main.parseToken t).isSome = true) :
    Main.parse_pages pages
      = some ((pySplit ',' pages).map (fun t => (Main.parseToken t).getD (0, 0))) := by
  simp only [Main.parse_pages, if_neg hne]
  exact mapM_eq_map_of_isSome _ _ _ hval

/-- Witness for C3: `"1-3,5,7-8"` parses to `[(1,3),(5,5),(7,8)]`. -/
theorem C3_witness :
    Main.parse_pages (strOf "1-3,5,7-8") = some [(1, 3), (5, 5), (7, 8)] := by
  rw [C3_split_parser_token_order (strOf "1-3,5,7-8") (by decide) (by decide)]
  decide

/-- Filtering `range N` by a half-open interval `[a, b)` yields the
contiguous block `range' a (min b N - a)`. -/
lemma filter_range_eq_range' (N a b : Nat) :
    (List.range N).filter (fun j => decide (a ≤ j ∧ j < b))
      = List.range' a (min b N - a) := by
  induction N with
  | zero => simp
  | succ n ih =>
    rw [List.range_succ, List.filter_append, ih]
    by_cases hb : b ≤ n
    · have h1 : min b (n + 1) = min b n := by omega
      have h2 : ¬ (a ≤ n ∧ n < b) := by omega
      simp [h1, h2]
    · push_neg at hb
      have h1 : min b n = n := by omega
      have h2 : min b (n + 1) = n + 1 := by omega
      by_cases ha : a ≤ n
      · have h3 : a ≤ n ∧ n < b := ⟨ha, hb⟩
        have h4 : n + 1 - a = (n - a) + 1 := by omega
        simp only [h1, h2, h3, List.filter_cons, List.filter_nil, decide_eq_true_eq,
          if_pos h3, h4, List.range'_concat]
        have h5 : a + 1 * (n - a) = n := by omega
        rw [h5]
        simp
      · have h3 : ¬ (a ≤ n ∧ n < b) := by omega
        have h4 : n - a = 0 := by omega
        have h5 : n + 1 - a = 0 := by omega
        simp [h1, h2, h3, h4, h5]

/-- The slice the code takes for one range equals the specification's
clamped page selection. -/
lemma pageSlice_eq_specSlice (doc : Pdf) (r : Int × Int) :
    PDFProcessor.pageSlice doc r = specSlice doc r := by
  simp only [PDFProcessor.pageSlice, specSlice]
  congr 1
  have hbN : (min (doc.length : Int) r.2).toNat ≤ doc.length := by omega
  rw [show (min (doc.length : Int) r.2).toNat - (max 0 (r.1 - 1)).toNat
      = min (min (doc.length : Int) r.2).toNat doc.length - (max 0 (r.1 - 1)).toNat by omega]
  rw [← filter_range_eq_range']
  apply List.filter_congr
  intro j hj
  have hjN : j < doc.length := List.mem_range.mp hj
  simp only [decide_eq_decide]
  omega

/-- A degenerate single-page range `(j+1, j+1)` slices out exactly page `j`. -/
lemma pageSlice_single (doc : Pdf) (j : Nat) (h : j < doc.length) :
    PDFProcessor.pageSlice doc ((j : Int) + 1, (j : Int) + 1) = [doc[j]] := by
  simp only [PDFProcessor.pageSlice]
  rw [show (max 0 ((j : Int) + 1 - 1)).toNat = j by omega,
    show (min (doc.length : Int) ((j : Int) + 1)).toNat = j + 1 by omega,
    show j + 1 - j = 1 by omega, List.range'_one]
  simp [List.getElem?_eq_getElem h]

/-- C4: split with an empty range list defaults to one single-page output
per page, in ascending page order; split with a nonempty range list yields
one output per range, in range order, containing exactly the pages of that
range clamped to `[1, N]`; a range whose clamped page set is empty yields an
empty output document rather than an error. -/
theorem C4_split_semantics (doc : Pdf) (rs : List (Int × Int)) (hne : rs ≠ []) :
    PDFProcessor.split_pdf doc [] = doc.map (fun p => [p]) ∧
    PDFProcessor.split_pdf doc rs = rs.map (specSlice doc) ∧
    (∀ r ∈ rs, min (doc.length : Int) r.2 < max 1 r.1 → specSlice doc r = []) := by
  refine ⟨?_, ?_, ?_⟩
  · simp only [PDFProcessor.split_pdf, eq_self_iff_true, if_true,
      List.range'_eq_map_range, List.map_map]
    apply List.ext_getElem (by simp)
    intro n h1 h2
    simp only [List.getElem_map, List.getElem_range, Function.comp_apply]
    have hn : n < doc.length := by simpa using h2
    rw [show ((1 + n : Nat) : Int) = (n : Int) + 1 by push_cast; ring]
    exact pageSlice_single doc n hn
  · simp only [PDFProcessor.split_pdf, if_neg hne]
    exact List.map_congr_left (fun r _ => pageSlice_eq_specSlice doc r)
  · intro r _ hcl
    simp only [specSlice]
    rw [List.filter_eq_nil_iff.mpr ?_, List.filterMap_nil]
    intro j hj
    have hjN : j < doc.length := List.mem_range.mp hj
    simp only [decide_eq_true_eq]
    omega

/-- Witness for C4: a 3-page document, ranges `(2,3)` and `(7,9)`; the
second range lies entirely outside the document and yields an empty
output. -/
theorem C4_witness :
    PDFProcessor.split_pdf [⟨1, 0⟩, ⟨2, 0⟩, ⟨3, 0⟩] []
        = [[⟨1, 0⟩], [⟨2, 0⟩], [⟨3, 0⟩]] ∧
    PDFProcessor.split_pdf [⟨1, 0⟩, ⟨2, 0⟩, ⟨3, 0⟩] [(2, 3), (7, 9)]
        = [[⟨2, 0⟩, ⟨3, 0⟩], []] ∧
    specSlice [⟨1, 0⟩, ⟨2, 0⟩, ⟨3, 0⟩] (7, 9) = [] := by
  obtain ⟨h1, h2, h3⟩ :=
    C4_split_semantics [⟨1, 0⟩, ⟨2, 0⟩, ⟨3, 0⟩] [(2, 3), (7, 9)] (by decide)
  refine ⟨by rw [h1]; decide, by rw [h2]; decide, h3 (7, 9) (by decide) (by decide)⟩

/-- A list of inputs containing an unopenable file makes the open loop
fail. -/
lemma openAll_error_of_none (docs : List (Option Pdf)) (hbad : none ∈ docs) :
    ∃ e, PDFProcessor.openAll docs = Except.error e := by
  induction docs with
  | nil => simp at hbad
  | cons o t ih =>
    cases o with
    | none => exact ⟨strOf "ProcessingError", rfl⟩
    | some d =>
      have ht : none ∈ t := by simpa using hbad
      obtain ⟨e, he⟩ := ih ht
      exact ⟨e, by simp only [PDFProcessor.openAll, he]⟩

/-- C5: merging openable files `A` and `B` in that order yields the
concatenation `A ++ B` — exactly `a + b` pages with all of `A`'s pages, in
order, preceding all of `B`'s — and merging any input list containing an
unopenable file fails with a processing error. -/
theorem C5_merge_concatenation (A B : Pdf) (docs : List (Option Pdf))
    (hbad : none ∈ docs) :
    PDFProcessor.merge_pdfs [some A, some B] = Except.ok (A ++ B) ∧
    (A ++ B).length = A.length + B.length ∧
    (∃ e, PDFProcessor.merge_pdfs docs = Except.error e) := by
  refine ⟨?_, by simp, ?_⟩
  · show Except.ok (List.flatten [A, B]) = _
    simp
  · obtain ⟨e, he⟩ := openAll_error_of_none docs hbad
    exact ⟨e, by simp only [PDFProcessor.merge_pdfs, he]⟩

/-- Witness for C5 at two concrete one-page documents and an input list
whose second file cannot be opened. -/
theorem C5_witness :
    PDFProcessor.merge_pdfs [some [⟨1, 0⟩], some [⟨2, 0⟩]]
        = Except.ok [⟨1, 0⟩, ⟨2, 0⟩] ∧
    (∃ e, PDFProcessor.merge_pdfs [some [⟨1, 0⟩], none] = Except.error e) := by
  obtain ⟨h1, _, _⟩ :=
    C5_merge_concatenation [⟨1, 0⟩] [⟨2, 0⟩] [some [⟨1, 0⟩], none] (by simp)
  obtain ⟨_, _, h3⟩ :=
    C5_merge_concatenation [⟨1, 0⟩] [⟨2, 0⟩] [some [⟨1, 0⟩], none] (by simp)
  exact ⟨h1, h3⟩

/-- C6: remove-pages keeps exactly the pages whose 1-based number is not in
the removal set, in original ascending order; in particular removing
`{2, 4}` from a 5-page document yields pages 1, 3 and 5. -/
theorem C6_remove_pages_complement (doc : Pdf) (rm : List Int) :
    PDFProcessor.remove_pages doc rm = specRemove doc rm ∧
    PDFProcessor.remove_pages [⟨1, 0⟩, ⟨2, 0⟩, ⟨3, 0⟩, ⟨4, 0⟩, ⟨5, 0⟩] [2, 4]
      = [⟨1, 0⟩, ⟨3, 0⟩, ⟨5, 0⟩] := by
  refine ⟨?_, by decide⟩
  simp only [PDFProcessor.remove_pages, specRemove, List.range'_eq_map_range,
    List.filter_map, List.filterMap_map]
  have hfilter :
      List.filter ((fun i : Nat => decide ((i : Int) ∉ rm)) ∘ fun x => 1 + x)
          (List.range doc.length)
        = List.filter (fun j : Nat => decide ((j : Int) + 1 ∉ rm))
          (List.range doc.length) := by
    apply List.filter_congr
    intro j _
    have hc : ((1 + j : Nat) : Int) = (j : Int) + 1 := by push_cast; ring
    simp [Function.comp, hc]
  rw [hfilter]
  apply List.filterMap_congr
  intro j _
  have hj1 : 1 + j - 1 = j := by omega
  simp [Function.comp, hj1]

/-- C7: extract and organize implement the same page selection: the listed
1-based page numbers restricted to `[1, N]`, taken in list order with
duplicates preserved and out-of-range numbers silently skipped. -/
theorem C7_extract_organize_selection (doc : Pdf) (nums : List Int) :
    PDFProcessor.extract_pages doc nums = specSelect doc nums ∧
    PDFProcessor.organize_pdf doc nums = PDFProcessor.extract_pages doc nums := by
  refine ⟨?_, rfl⟩
  induction nums with
  | nil => rfl
  | cons n t ih =>
    simp only [PDFProcessor.extract_pages, specSelect, List.filterMap_cons,
      List.filter_cons] at ih ⊢
    by_cases h : 1 ≤ n ∧ n ≤ (doc.length : Int)
    · have h2 : 0 ≤ n - 1 ∧ n - 1 < (doc.length : Int) := by omega
      simp only [h2, and_self, if_true, decide_eq_true_eq, h, if_pos, List.filterMap_cons]
      cases hd : doc[(n - 1).toNat]? with
      | none => simpa using ih
      | some p => simpa [hd] using ih
    · have h2 : ¬ (0 ≤ n - 1 ∧ n - 1 < (doc.length : Int)) := by omega
      simp only [h2, if_false, decide_eq_true_eq, h, if_neg, not_false_iff]
      simpa using ih

/-- C8: rotating every page by 90 and then by 270 restores every page's
orientation to that of rotating by 0, leaving page contents untouched — the
round-trip identity of the rotate operation. -/
theorem C8_rotate_round_trip (doc : Pdf) :
    (PDFProcessor.rotate_pdf (PDFProcessor.rotate_pdf doc 90) 270).map PDFProcessor.orient
      = (PDFProcessor.rotate_pdf doc 0).map PDFProcessor.orient ∧
    (PDFProcessor.rotate_pdf (PDFProcessor.rotate_pdf doc 90) 270).map Page.content
      = doc.map Page.content := by
  constructor
  · simp only [PDFProcessor.rotate_pdf, List.map_map]
    apply List.map_congr_left
    intro p _
    simp only [Function.comp_apply, PDFProcessor.orient]
    omega
  · simp only [PDFProcessor.rotate_pdf, List.map_map]
    apply List.map_congr_left
    intro p _
    simp [Function.comp]

/-- One directory sweep keeps exactly the entries the deletion predicate
rejects and counts exactly the entries it accepts. -/
lemma sweepDir_spec (now secs : Int) (l : List Cleanup.FsFile) :
    Cleanup.sweepDir now secs l
      = (l.filter (fun f => ! delOk now secs f), l.countP (delOk now secs)) := by
  induction l with
  | nil => rfl
  | cons f t ih =>
    simp only [Cleanup.sweepDir, ih, List.filter_cons, List.countP_cons]
    by_cases h1 : f.isDir = true ∨ f.name = strOf ".gitkeep"
    · have hd : delOk now secs f = false := by
        rcases h1 with h1 | h1 <;> simp [delOk, h1]
      simp [h1, hd]
    · push_neg at h1
      obtain ⟨h1d, h1g⟩ := h1
      by_cases h2 : f.osError = true
      · have hd : delOk now secs f = false := by simp [delOk, h2]
        simp [h1d, h1g, h2, hd]
      · simp only [Bool.not_eq_true] at h2
        by_cases h3 : now - f.mtime > secs
        · have hd : delOk now secs f = true := by
            simp only [Bool.not_eq_true] at h1d
            simp [delOk, h1d, h1g, h2, h3]
          simp [h1d, h1g, h2, h3, hd]
        · have hd : delOk now secs f = false := by simp [delOk, h3]
          simp [h1d, h1g, h2, h3, hd]

/-- C9: one sweep pass over existing inbound and outbound zones deletes
exactly the regular files (subdirectories and `.gitkeep` skipped, files
whose deletion raises an `OSError` kept and not counted, without aborting
the sweep) whose age strictly exceeds `h` hours, and returns the number of
files deleted; in particular, with the default 24-hour threshold, a file
modified 25 hours ago is deleted and one modified 1 hour ago is kept, with
reported count 1. -/
theorem C9_sweeper_deletes_old_files (h now : Int)
    (uploads outputs : List Cleanup.FsFile) :
    Cleanup.cleanup_old_files h now ⟨true, uploads, true, outputs⟩
      = (⟨true, uploads.filter (fun f => ! delOk now (h * 3600) f), true,
            outputs.filter (fun f => ! delOk now (h * 3600) f)⟩,
          uploads.countP (delOk now (h * 3600))
            + outputs.countP (delOk now (h * 3600))) ∧
    Cleanup.cleanup_old_files Cleanup.defaultMaxAgeHours (100 * 3600)
        ⟨true, [], true,
          [⟨strOf "old.pdf", false, 75 * 3600, false⟩,
           ⟨strOf "new.pdf", false, 99 * 3600, false⟩]⟩
      = (⟨true, [], true, [⟨strOf "new.pdf", false, 99 * 3600, false⟩]⟩, 1) := by
  refine ⟨?_, by decide⟩
  simp [Cleanup.cleanup_old_files, sweepDir_spec]

/-- C10: the create-zip handler always responds with success: every listed
path that exists is added to the archive under its basename in list order,
every nonexistent path is silently skipped, and a list in which no path
exists still produces an empty archive with the success message. -/
theorem C10_create_zip_skips_missing (fs : Str → Option Str) (files : List Str) :
    (Main.create_zip fs files).status = 200 ∧
    (Main.create_zip fs files).message = strOf "ZIP file created successfully" ∧
    (Main.create_zip fs files).entries
      = (files.filter (fun p => (fs p).isSome)).map
          (fun p => (basename p, (fs p).getD [])) ∧
    ((∀ p ∈ files, fs p = none) → (Main.create_zip fs files).entries = []) := by
  have hent : (Main.create_zip fs files).entries
      = (files.filter (fun p => (fs p).isSome)).map
          (fun p => (basename p, (fs p).getD [])) := by
    induction files with
    | nil => rfl
    | cons p t ih =>
      simp only [Main.create_zip] at ih ⊢
      cases hp : fs p with
      | none => simp [List.filterMap_cons, List.filter_cons, hp, ih]
      | some c => simp [List.filterMap_cons, List.filter_cons, hp, ih]
  refine ⟨rfl, rfl, hent, fun hall => ?_⟩
  have hnil : files.filter (fun p => (fs p).isSome) = [] :=
    List.filter_eq_nil_iff.mpr (fun p hp => by simp [hall p hp])
  rw [hent, hnil]
  rfl

/-- Witness for C10: a request listing only nonexistent paths yields an
empty archive and a success response. -/
theorem C10_witness :
    (Main.create_zip (fun _ => none)
        [strOf "outputs/a.pdf", strOf "gone.pdf"]).entries = [] ∧
    (Main.create_zip (fun _ => none)
        [strOf "outputs/a.pdf", strOf "gone.pdf"]).status = 200 := by
  obtain ⟨h1, _, _, h4⟩ :=
    C10_create_zip_skips_missing (fun _ => none)
      [strOf "outputs/a.pdf", strOf "gone.pdf"]
  exact ⟨h4 (fun p _ => rfl), h1⟩
